import Mathlib

/-
Verification of the scan-reconcile-cache SBOM pipeline of
docker-index-scanner (src/sbom/index.go) via a shallow embedding.

Conventions of the embedding:
- Go maps become association lists with unique keys: assignment to an
  existing key replaces its value in place, assignment to a fresh key
  appends, mirroring Go map semantics (size, last-write-wins).
- File contents (the persisted sbom.json) are modelled at the JSON
  abstract-syntax level: a `Json` value stands for the bytes on disk,
  `marshalSbom` for json.MarshalIndent (indentation is presentation only
  and does not affect the parsed value), `unmarshalSbom` for
  json.Unmarshal into types.Sbom.
- Go panics (out-of-range slice index, nil-pointer dereference) are
  modelled as `none` of an `Option` result: no value is produced.
- External collaborators (the two discovery engines, image acquisition,
  the vulnerability lookup) enter as explicit inputs / function
  parameters, per the spec's interface contracts.
-/

namespace DockerIndex

/-- JSON values, abstracting the bytes of the persisted cache document. -/
inductive Json where
  | str : String → Json
  | num : Int → Json
  | null : Json
  | arr : List Json → Json
  | obj : List (String × Json) → Json

/-- Lookup of a key in a JSON object's field list (first match). -/
def jGet : List (String × Json) → String → Option Json
  | [], _ => none
  | (k, v) :: rest, key => if k = key then some v else jGet rest key

/-- Go-map lookup on an association list. -/
def mapFind [DecidableEq α] : List (α × β) → α → Option β
  | [], _ => none
  | (k, v) :: rest, key => if k = key then some v else mapFind rest key

/-- Go-map assignment `m[k] = v`: replaces in place when the key is
present, appends when it is fresh. -/
def mapInsert [DecidableEq α] (m : List (α × β)) (k : α) (v : β) : List (α × β) :=
  if m.any fun p => decide (p.1 = k) then
    m.map fun p => if p.1 = k then (k, v) else p
  else
    m ++ [(k, v)]

/-- types.Platform: Os / Architecture / Variant of the image. -/
structure Platform where
  os : String
  architecture : String
  variant : String
deriving DecidableEq

/-- Distro identification reported by a discovery engine. -/
structure Distro where
  name : String
  version : String
deriving DecidableEq

/-- types.Package after the fields the pipeline manipulates: identity is
(name, version, type); the originating layer is carried as a diff-hash
reference plus, once normalized, its ordinal. -/
structure Package where
  name : String
  version : String
  ptype : String
  layerDiffId : String
  layerOrdinal : Option Nat
deriving DecidableEq

/-- v1.ConfigFile: the parsed image config — ordered RootFS diff-hashes
plus the platform fields the assembler reads. -/
structure ConfigFile where
  diffIds : List String
  os : String
  architecture : String
  variant : String
deriving DecidableEq

/-- v1.Manifest: ordered layer content-hashes plus the config blob size
the assembler reads. -/
structure Manifest where
  layers : List String
  configSize : Int
deriving DecidableEq

/-- v1.Image as consumed by indexImage: parsed config and manifest, the
content digest, and the raw manifest/config bytes (carried here already in
their reversible text encoding; the base64 encoder is Go stdlib). -/
structure Image where
  config : ConfigFile
  manifest : Manifest
  digest : String
  rawManifest : String
  rawConfig : String
deriving DecidableEq

/-- types.ImageSource: image identity block of the final document. -/
structure ImageSource where
  name : String
  digest : String
  manifest : Manifest
  config : ConfigFile
  rawManifest : String
  rawConfig : String
  distro : Option Distro
  platform : Platform
  size : Int
  tags : Option (List String)
deriving DecidableEq

/-- types.Source. -/
structure Source where
  type : String
  image : ImageSource
deriving DecidableEq

/-- types.Descriptor: the versioning stamp validated on cache reuse. -/
structure Descriptor where
  name : String
  version : String
  sbomVersion : String
deriving DecidableEq

/-- types.Sbom: the final document. Vulnerability records are kept
abstract as strings; only presence/absence of the field matters here. -/
structure Sbom where
  artifacts : List Package
  source : Source
  descriptor : Descriptor
  vulnerabilities : Option (List String)
deriving DecidableEq

/-- types.IndexResult: one discovery engine's outcome — packages, optional
distro identification, and an optional error carried inside the result. -/
structure IndexResult where
  packages : List Package
  distro : Option Distro
  error : Option String
deriving DecidableEq

/-- Build metadata (internal.FromBuild): the current build's tool version
and SBOM schema version. The internal package is outside src/; per the
spec it only supplies these two strings. -/
structure BuildInfo where
  version : String
  sbomVersion : String
deriving DecidableEq

/-- types.LayerMapping: the five mappings over the image's layers
(src/sbom/index.go lines 180-186). -/
structure LayerMapping where
  byDiffId : List (String × String)
  byDigest : List (String × String)
  diffIdByOrdinal : List (Nat × String)
  digestByOrdinal : List (Nat × String)
  ordinalByDiffId : List (String × Nat)
deriving DecidableEq

def emptyLayerMapping : LayerMapping :=
  { byDiffId := [], byDigest := [], diffIdByOrdinal := [],
    digestByOrdinal := [], ordinalByDiffId := [] }

/-- One iteration of the loop of createLayerMapping (lines 192-201):
the five Go-map assignments for layer ordinal `i`. -/
def addLayer (lm : LayerMapping) (i : Nat) (digest diffId : String) : LayerMapping :=
  { byDiffId := mapInsert lm.byDiffId diffId digest
  , byDigest := mapInsert lm.byDigest digest diffId
  , ordinalByDiffId := mapInsert lm.ordinalByDiffId diffId i
  , diffIdByOrdinal := mapInsert lm.diffIdByOrdinal i diffId
  , digestByOrdinal := mapInsert lm.digestByOrdinal i digest }

/-- The loop `for i := range layers`, reading `diffIds[i]` at each step:
both lists are consumed in lockstep from position `i` up. When the layers
list still has elements but the diff-hash list is exhausted, the Go code
indexes diffIds out of range and panics — modelled as `none`. -/
def createLayerMappingAux : Nat → List String → List String → LayerMapping → Option LayerMapping
  | _, [], _, lm => some lm
  | _, _ :: _, [], _ => none
  | i, digest :: layers, diffId :: diffIds, lm =>
      createLayerMappingAux (i + 1) layers diffIds (addLayer lm i digest diffId)

/-- createLayerMapping (src/sbom/index.go lines 179-204). -/
def createLayerMapping (img : Image) : Option LayerMapping :=
  createLayerMappingAux 0 img.manifest.layers img.config.diffIds emptyLayerMapping

/-- Strict decoder for a list of JSON values. -/
def decodeList (f : Json → Option α) : List Json → Option (List α)
  | [] => some []
  | j :: js =>
    match f j with
    | none => none
    | some a =>
      match decodeList f js with
      | none => none
      | some as => some (a :: as)

def asObj : Json → Option (List (String × Json))
  | .obj o => some o
  | _ => none

def asStr : Json → Option String
  | .str s => some s
  | _ => none

def asNum : Json → Option Int
  | .num i => some i
  | _ => none

def decodeOptNat : Json → Option (Option Nat)
  | .null => some none
  | .num i => some (some i.toNat)
  | _ => none

def encodeOptNat : Option Nat → Json
  | none => .null
  | some n => .num n

def encodeStrList (xs : List String) : Json :=
  .arr (xs.map .str)

def decodeStrList : Json → Option (List String)
  | .arr js => decodeList asStr js
  | _ => none

def encodeOptStrList : Option (List String) → Json
  | none => .null
  | some xs => encodeStrList xs

def decodeOptStrList : Json → Option (Option (List String))
  | .null => some none
  | j => (decodeStrList j).map some

def marshalPlatform (p : Platform) : Json :=
  .obj [("Os", .str p.os), ("Architecture", .str p.architecture), ("Variant", .str p.variant)]

def unmarshalPlatform (j : Json) : Option Platform :=
  match asObj j with
  | none => none
  | some o =>
    match (jGet o "Os").bind asStr, (jGet o "Architecture").bind asStr,
          (jGet o "Variant").bind asStr with
    | some os, some ar, some va => some ⟨os, ar, va⟩
    | _, _, _ => none

def marshalDistro (d : Distro) : Json :=
  .obj [("Name", .str d.name), ("Version", .str d.version)]

def unmarshalDistro (j : Json) : Option Distro :=
  match asObj j with
  | none => none
  | some o =>
    match (jGet o "Name").bind asStr, (jGet o "Version").bind asStr with
    | some n, some v => some ⟨n, v⟩
    | _, _ => none

def encodeOptDistro : Option Distro → Json
  | none => .null
  | some d => marshalDistro d

def decodeOptDistro : Json → Option (Option Distro)
  | .null => some none
  | j => (unmarshalDistro j).map some

def marshalPackage (p : Package) : Json :=
  .obj [("Name", .str p.name), ("Version", .str p.version), ("Type", .str p.ptype),
        ("LayerDiffId", .str p.layerDiffId), ("LayerOrdinal", encodeOptNat p.layerOrdinal)]

def unmarshalPackage (j : Json) : Option Package :=
  match asObj j with
  | none => none
  | some o =>
    match (jGet o "Name").bind asStr, (jGet o "Version").bind asStr,
          (jGet o "Type").bind asStr, (jGet o "LayerDiffId").bind asStr,
          (jGet o "LayerOrdinal").bind decodeOptNat with
    | some n, some v, some t, some d, some lo => some ⟨n, v, t, d, lo⟩
    | _, _, _, _, _ => none

def marshalConfigFile (c : ConfigFile) : Json :=
  .obj [("DiffIds", encodeStrList c.diffIds), ("Os", .str c.os),
        ("Architecture", .str c.architecture), ("Variant", .str c.variant)]

def unmarshalConfigFile (j : Json) : Option ConfigFile :=
  match asObj j with
  | none => none
  | some o =>
    match (jGet o "DiffIds").bind decodeStrList, (jGet o "Os").bind asStr,
          (jGet o "Architecture").bind asStr, (jGet o "Variant").bind asStr with
    | some ds, some os, some ar, some va => some ⟨ds, os, ar, va⟩
    | _, _, _, _ => none

def marshalManifest (m : Manifest) : Json :=
  .obj [("Layers", encodeStrList m.layers), ("ConfigSize", .num m.configSize)]

def unmarshalManifest (j : Json) : Option Manifest :=
  match asObj j with
  | none => none
  | some o =>
    match (jGet o "Layers").bind decodeStrList, (jGet o "ConfigSize").bind asNum with
    | some ls, some sz => some ⟨ls, sz⟩
    | _, _ => none

def marshalImageSource (s : ImageSource) : Json :=
  .obj [("Name", .str s.name), ("Digest", .str s.digest),
        ("Manifest", marshalManifest s.manifest), ("Config", marshalConfigFile s.config),
        ("RawManifest", .str s.rawManifest), ("RawConfig", .str s.rawConfig),
        ("Distro", encodeOptDistro s.distro), ("Platform", marshalPlatform s.platform),
        ("Size", .num s.size), ("Tags", encodeOptStrList s.tags)]

def unmarshalImageSource (j : Json) : Option ImageSource :=
  match asObj j with
  | none => none
  | some o =>
    match (jGet o "Name").bind asStr, (jGet o "Digest").bind asStr,
          (jGet o "Manifest").bind unmarshalManifest, (jGet o "Config").bind unmarshalConfigFile,
          (jGet o "RawManifest").bind asStr, (jGet o "RawConfig").bind asStr,
          (jGet o "Distro").bind decodeOptDistro, (jGet o "Platform").bind unmarshalPlatform,
          (jGet o "Size").bind asNum, (jGet o "Tags").bind decodeOptStrList with
    | some n, some dg, some mf, some cf, some rm, some rc, some di, some pl, some sz, some tg =>
      some ⟨n, dg, mf, cf, rm, rc, di, pl, sz, tg⟩
    | _, _, _, _, _, _, _, _, _, _ => none

def marshalSource (s : Source) : Json :=
  .obj [("Type", .str s.type), ("Image", marshalImageSource s.image)]

def unmarshalSource (j : Json) : Option Source :=
  match asObj j with
  | none => none
  | some o =>
    match (jGet o "Type").bind asStr, (jGet o "Image").bind unmarshalImageSource with
    | some t, some i => some ⟨t, i⟩
    | _, _ => none

def marshalDescriptor (d : Descriptor) : Json :=
  .obj [("Name", .str d.name), ("Version", .str d.version), ("SbomVersion", .str d.sbomVersion)]

def unmarshalDescriptor (j : Json) : Option Descriptor :=
  match asObj j with
  | none => none
  | some o =>
    match (jGet o "Name").bind asStr, (jGet o "Version").bind asStr,
          (jGet o "SbomVersion").bind asStr with
    | some n, some v, some sv => some ⟨n, v, sv⟩
    | _, _, _ => none

/-- json.MarshalIndent of a types.Sbom, at the JSON-value level. -/
def marshalSbom (s : Sbom) : Json :=
  .obj [("Artifacts", .arr (s.artifacts.map marshalPackage)),
        ("Source", marshalSource s.source),
        ("Descriptor", marshalDescriptor s.descriptor),
        ("Vulnerabilities", encodeOptStrList s.vulnerabilities)]

/-- json.Unmarshal of bytes into a types.Sbom, at the JSON-value level. -/
def unmarshalSbom (j : Json) : Option Sbom :=
  match asObj j with
  | none => none
  | some o =>
    match (jGet o "Artifacts").bind (fun a =>
            match a with
            | .arr as => decodeList unmarshalPackage as
            | _ => none),
          (jGet o "Source").bind unmarshalSource,
          (jGet o "Descriptor").bind unmarshalDescriptor,
          (jGet o "Vulnerabilities").bind decodeOptStrList with
    | some arts, some src, some desc, some vu => some ⟨arts, src, desc, vu⟩
    | _, _, _, _ => none

theorem decodeList_map {f : α → Json} {g : Json → Option α}
    (h : ∀ a, g (f a) = some a) (xs : List α) :
    decodeList g (xs.map f) = some xs := by
  induction xs with
  | nil => rfl
  | cons x xs ih => simp [decodeList, h, ih]

theorem decodeStrList_encodeStrList (xs : List String) :
    decodeStrList (encodeStrList xs) = some xs := by
  show decodeList asStr (xs.map Json.str) = some xs
  exact @decodeList_map String Json.str asStr (fun a => rfl) xs

theorem decodeOptStrList_encodeOptStrList (xs : Option (List String)) :
    decodeOptStrList (encodeOptStrList xs) = some xs := by
  cases xs with
  | none => rfl
  | some xs =>
    show (decodeStrList (encodeStrList xs)).map some = some (some xs)
    rw [decodeStrList_encodeStrList]
    rfl

theorem unmarshalPlatform_marshalPlatform (p : Platform) :
    unmarshalPlatform (marshalPlatform p) = some p := by
  cases p
  simp [marshalPlatform, unmarshalPlatform, asObj, asStr, jGet]

theorem unmarshalDistro_marshalDistro (d : Distro) :
    unmarshalDistro (marshalDistro d) = some d := by
  cases d
  simp [marshalDistro, unmarshalDistro, asObj, asStr, jGet]

theorem decodeOptDistro_encodeOptDistro (d : Option Distro) :
    decodeOptDistro (encodeOptDistro d) = some d := by
  cases d with
  | none => rfl
  | some d =>
    cases d
    simp [encodeOptDistro, decodeOptDistro, marshalDistro, unmarshalDistro, asObj, asStr, jGet]

theorem unmarshalPackage_marshalPackage (p : Package) :
    unmarshalPackage (marshalPackage p) = some p := by
  cases p with
  | mk n v t d lo =>
    cases lo <;>
      simp [marshalPackage, unmarshalPackage, asObj, asStr, jGet, encodeOptNat, decodeOptNat]

theorem unmarshalConfigFile_marshalConfigFile (c : ConfigFile) :
    unmarshalConfigFile (marshalConfigFile c) = some c := by
  cases c
  simp [marshalConfigFile, unmarshalConfigFile, asObj, asStr, jGet,
        decodeStrList_encodeStrList]

theorem unmarshalManifest_marshalManifest (m : Manifest) :
    unmarshalManifest (marshalManifest m) = some m := by
  cases m
  simp [marshalManifest, unmarshalManifest, asObj, asStr, asNum, jGet,
        decodeStrList_encodeStrList]

theorem unmarshalImageSource_marshalImageSource (s : ImageSource) :
    unmarshalImageSource (marshalImageSource s) = some s := by
  cases s
  simp [marshalImageSource, unmarshalImageSource, asObj, asStr, asNum, jGet,
        unmarshalManifest_marshalManifest, unmarshalConfigFile_marshalConfigFile,
        decodeOptDistro_encodeOptDistro, unmarshalPlatform_marshalPlatform,
        decodeOptStrList_encodeOptStrList]

theorem unmarshalSource_marshalSource (s : Source) :
    unmarshalSource (marshalSource s) = some s := by
  cases s
  simp [marshalSource, unmarshalSource, asObj, asStr, jGet,
        unmarshalImageSource_marshalImageSource]

theorem unmarshalDescriptor_marshalDescriptor (d : Descriptor) :
    unmarshalDescriptor (marshalDescriptor d) = some d := by
  cases d
  simp [marshalDescriptor, unmarshalDescriptor, asObj, asStr, jGet]

/-- Round-trip of the document serialization: unmarshalling the bytes
written by marshalSbom recovers the document exactly. -/
theorem unmarshalSbom_marshalSbom (s : Sbom) :
    unmarshalSbom (marshalSbom s) = some s := by
  cases s
  simp [marshalSbom, unmarshalSbom, asObj, jGet,
        decodeList_map unmarshalPackage_marshalPackage,
        unmarshalSource_marshalSource, unmarshalDescriptor_marshalDescriptor,
        decodeOptStrList_encodeOptStrList]

/-- Modelled from the spec: types.NormalizePackages is repository code not
under src/. Per section 4.3 it canonicalizes one record, resolving a layer
reference expressed as a diff-hash into its ordinal via the LayerMapping,
is idempotent (an already-normalized record is a no-op), and fails with a
NormalizationError when the layer reference cannot be resolved. The
LayerMapping is threaded explicitly here. -/
def normalizePackage (lm : LayerMapping) (p : Package) : Except String Package :=
  match p.layerOrdinal with
  | some _ => .ok p
  | none =>
    match mapFind lm.ordinalByDiffId p.layerDiffId with
    | some i => .ok { p with layerOrdinal := some i }
    | none => .error (String.append "unable to resolve layer " p.layerDiffId)

/-- Modelled from the spec: types.NormalizePackages over a list — the
first unresolvable record fails the whole call; on error the Go function
returns a nil package slice, modelled by the caller reading `[]`. -/
def NormalizePackages (lm : LayerMapping) : List Package → Except String (List Package)
  | [] => .ok []
  | p :: ps =>
    match normalizePackage lm p with
    | .error e => .error e
    | .ok q =>
      match NormalizePackages lm ps with
      | .error e => .error e
      | .ok qs => .ok (q :: qs)

/-- Package identity for the merge: match on (name, version, type),
per section 4.4 of the spec. -/
def samePackage (p q : Package) : Bool :=
  p.name == q.name && p.version == q.version && p.ptype == q.ptype

/-- Modelled from the spec: types.MergePackages is repository code not
under src/. Per section 4.4 it reconciles the two normalized lists into
one deduplicated list: two packages are the same artifact iff they match
on (name, version, type); the first argument (syft, per the call order on
line 118) is the documented priority side; packages found by only one
engine are included unconditionally; output order is deterministic. -/
def MergePackages (a b : IndexResult) : List Package :=
  a.packages ++ b.packages.filter fun q => !(a.packages.any fun p => samePackage p q)

/-- Image reference: repository form plus the identifier (tag or digest). -/
structure Reference where
  repository : String
  identifier : String
deriving DecidableEq

/-- Splitting a character list at every occurrence of a separator. -/
def splitOnChar (c : Char) : List Char → List (List Char)
  | [] => [[]]
  | x :: xs =>
    let r := splitOnChar c xs
    if x = c then [] :: r
    else
      match r with
      | [] => [[x]]
      | y :: ys => (x :: y) :: ys

/-- strings.HasPrefix(s, "sha256:") of line 135: the identifier is a
content digest rather than a mutable tag. -/
def sha256Identifier (s : String) : Bool :=
  "sha256:".data.isPrefixOf s.data

/-- Modelled from the spec: name.ParseReference (go-containerregistry) is
outside this repository. Per sections 4.6 and 8 a parsable reference
splits into a repository and an identifier: `repo:tag` yields repository
`repo` and identifier `tag`, `repo@sha256:<hex>` yields repository `repo`
and the digest as identifier, a bare `repo` defaults to identifier
`latest`; empty or malformed names do not parse. -/
def parseReference (s : String) : Option Reference :=
  if s = "" then none
  else if s.data.any fun c => decide (c = ' ') then none
  else
    match splitOnChar '@' s.data with
    | [base] =>
      match splitOnChar ':' base with
      | [repo] => if repo.isEmpty then none else some ⟨String.mk repo, "latest"⟩
      | [repo, tag] =>
        if repo.isEmpty || tag.isEmpty then none
        else some ⟨String.mk repo, String.mk tag⟩
      | _ => none
    | [base, dig] =>
      if base.isEmpty then none
      else if "sha256:".data.isPrefixOf dig then some ⟨String.mk base, String.mk dig⟩
      else none
    | _ => none

/-- Errors produced by the per-image pipeline, each carrying the image
name it was wrapped with (errors.Wrapf on lines 115 and 132). -/
inductive IndexError where
  | normalization (imageName : String) (cause : String)
  | referenceParse (imageName : String)
deriving DecidableEq

/-- The cache read of indexImage (src/sbom/index.go lines 82-97): the
persisted document is returned iff the cache-disable environment variable
is not set, the file exists and is readable (content present), its bytes
unmarshal as an Sbom, and the Descriptor's SbomVersion and Version both
equal the current build's. `content` is the state of
`<path>/sbom.json`: `none` for absent or unreadable. -/
def cacheLookup (noCache : Bool) (build : BuildInfo) (content : Option Json) : Option Sbom :=
  if noCache then none
  else
    match content with
    | none => none
    | some j =>
      match unmarshalSbom j with
      | none => none
      | some s =>
        if s.descriptor.sbomVersion = build.sbomVersion ∧ s.descriptor.version = build.version then
          some s
        else none

/-- The reference-name handling of indexImage (lines 128-138 and 167-169),
computing the canonical name and the tag list from the supplied name. -/
def refInfo (imageName : String) : Except IndexError (String × List String) :=
  if imageName = "" then .ok (imageName, [])
  else
    match parseReference imageName with
    | none => .error (.referenceParse imageName)
    | some ref =>
      .ok (ref.repository,
           if sha256Identifier ref.identifier then [] else [ref.identifier])

/-- The compute path of indexImage (lines 99-169): layer mapping, the two
engine results (delivered on their channels in fixed order, given here as
inputs since the engines are external), normalization, merge, reference
handling and assembly. Go detail kept on purpose: lines 111-113 assign
both normalization errors to the same `err` variable, so only the second
(syft) call's error reaches the check on line 114; when the first (trivy)
call fails its packages are the nil slice. The outer `Option` is `none`
when createLayerMapping panics. -/
def indexImageCompute (build : BuildInfo) (img : Image) (imageName : String)
    (trivyResult syftResult : IndexResult) : Option (Except IndexError Sbom) :=
  match createLayerMapping img with
  | none => none
  | some lm =>
    let trivyNorm := NormalizePackages lm trivyResult.packages
    let syftNorm := NormalizePackages lm syftResult.packages
    match syftNorm with
    | .error e => some (.error (.normalization imageName e))
    | .ok syftPkgs =>
      let trivyPkgs := match trivyNorm with | .ok ps => ps | .error _ => []
      let packages := MergePackages { syftResult with packages := syftPkgs }
                                    { trivyResult with packages := trivyPkgs }
      match refInfo imageName with
      | .error e => some (.error e)
      | .ok (canonicalName, tag) =>
        some (.ok
          { artifacts := packages
          , source :=
            { type := "image"
            , image :=
              { name := canonicalName
              , digest := img.digest
              , manifest := img.manifest
              , config := img.config
              , rawManifest := img.rawManifest
              , rawConfig := img.rawConfig
              , distro := syftResult.distro
              , platform :=
                { os := img.config.os
                , architecture := img.config.architecture
                , variant := img.config.variant }
              , size := img.manifest.configSize
              , tags := if tag.length > 0 then some tag else none } }
          , descriptor :=
            { name := "docker index"
            , version := build.version
            , sbomVersion := build.sbomVersion }
          , vulnerabilities := none })

/-- indexImage (lines 80-177): cache lookup first; on a hit the persisted
document is returned unchanged and the file content is untouched; on a
miss the compute path runs and the fresh document is written (the
best-effort write modelled as succeeding). The returned pair is the
document plus the cache-file content after the call. -/
def indexImage (noCache : Bool) (build : BuildInfo) (content : Option Json)
    (img : Image) (imageName : String) (trivyResult syftResult : IndexResult) :
    Option (Except IndexError (Sbom × Option Json)) :=
  match cacheLookup noCache build content with
  | some s => some (.ok (s, content))
  | none =>
    match indexImageCompute build img imageName trivyResult syftResult with
    | none => none
    | some (.error e) => some (.error e)
    | some (.ok s) => some (.ok (s, some (marshalSbom s)))

/-- The outcome record of one image in the multi-image fan-out
(src/sbom/index.go lines 38-43). -/
structure ImageIndexResult where
  input : String
  image : Option Image
  sbom : Option Sbom
  error : Option String
deriving DecidableEq

/-- indexImageAsync (lines 45-58). IndexImage's outcome arrives as an
input (image acquisition and the full per-image pipeline behind it), the
vulnerability lookup as a function, per the enrichment contract. Go detail
kept on purpose: line 48 reassigns the same `err` variable that held
IndexImage's error, so only QueryCves's error reaches the record; when
IndexImage failed (nil sbom) and QueryCves succeeds, line 50 dereferences
the nil sbom pointer — modelled as `none`: no record is delivered. -/
def indexImageAsync (image : String)
    (indexOutcome : Option Sbom × Option Image × Option String)
    (queryCves : Option Sbom → Except String (List String)) :
    Option ImageIndexResult :=
  let sbom := indexOutcome.1
  let img := indexOutcome.2.1
  match queryCves sbom with
  | .ok cves =>
    match sbom with
    | some s =>
      some { input := image, image := img,
             sbom := some { s with vulnerabilities := some cves }, error := none }
    | none => none
  | .error e =>
    some { input := image, image := img, sbom := sbom, error := some e }

theorem mapInsert_fresh [DecidableEq α] (m : List (α × β)) (k : α) (v : β)
    (h : ∀ p ∈ m, p.1 ≠ k) : mapInsert m k v = m ++ [(k, v)] := by
  unfold mapInsert
  rw [if_neg]
  simp only [List.any_eq_true, decide_eq_true_eq, not_exists]
  intro p
  rw [not_and]
  exact h p

theorem mapFind_append_right [DecidableEq α] (m1 m2 : List (α × β)) (k : α)
    (h : ∀ p ∈ m1, p.1 ≠ k) : mapFind (m1 ++ m2) k = mapFind m2 k := by
  induction m1 with
  | nil => rfl
  | cons p m1 ih =>
    have hp : p.1 ≠ k := h p (List.mem_cons_self p m1)
    have : mapFind ((p :: m1) ++ m2) k = mapFind (m1 ++ m2) k := by
      cases p with
      | mk k0 v0 => simp [mapFind, hp]
    rw [this]
    exact ih fun q hq => h q (List.mem_cons_of_mem p hq)

theorem mapFind_cons [DecidableEq α] (k : α) (v : β) (m : List (α × β)) (key : α) :
    mapFind ((k, v) :: m) key = if k = key then some v else mapFind m key := rfl

theorem mapFind_zip_get [DecidableEq α] :
    ∀ (ks : List α) (vs : List β) (t : Nat) (hk : ks.Nodup)
      (h1 : t < ks.length) (h2 : t < vs.length),
      mapFind (ks.zip vs) (ks.get ⟨t, h1⟩) = some (vs.get ⟨t, h2⟩) := by
  intro ks
  induction ks with
  | nil => intro vs t hk h1 h2; exact absurd h1 (Nat.not_lt_zero t)
  | cons k ks ih =>
    intro vs t hk h1 h2
    cases vs with
    | nil => exact absurd h2 (Nat.not_lt_zero t)
    | cons v vs =>
      cases t with
      | zero => show (if k = k then some v else _) = some v; rw [if_pos rfl]
      | succ t =>
        have hlt : t < ks.length := Nat.lt_of_succ_lt_succ h1
        have hlt2 : t < vs.length := Nat.lt_of_succ_lt_succ h2
        have hne : k ≠ ks.get ⟨t, hlt⟩ := by
          intro he
          exact (List.nodup_cons.mp hk).1 (by rw [he]; exact List.get_mem ks t hlt)
        show mapFind ((k, v) :: ks.zip vs) (ks.get ⟨t, hlt⟩) = some (vs.get ⟨t, hlt2⟩)
        rw [mapFind_cons, if_neg hne]
        exact ih vs t (List.nodup_cons.mp hk).2 hlt hlt2

/-- The consecutive ordinals i, i+1, ..., i+n-1. -/
def ordsFrom : Nat → Nat → List Nat
  | _, 0 => []
  | i, n + 1 => i :: ordsFrom (i + 1) n

theorem ordsFrom_length : ∀ (n i : Nat), (ordsFrom i n).length = n := by
  intro n
  induction n with
  | zero => intro i; rfl
  | succ n ih => intro i; simp [ordsFrom, ih]

theorem mem_ordsFrom_le : ∀ (n i j : Nat), j ∈ ordsFrom i n → i ≤ j := by
  intro n
  induction n with
  | zero => intro i j h; simp [ordsFrom] at h
  | succ n ih =>
    intro i j h
    rcases List.mem_cons.mp h with h | h
    · exact h ▸ Nat.le_refl i
    · exact Nat.le_of_succ_le (ih (i + 1) j h)

theorem ordsFrom_nodup : ∀ (n i : Nat), (ordsFrom i n).Nodup := by
  intro n
  induction n with
  | zero => intro i; simp [ordsFrom]
  | succ n ih =>
    intro i
    refine List.nodup_cons.mpr ⟨fun hmem => ?_, ih (i + 1)⟩
    exact absurd (mem_ordsFrom_le n (i + 1) i hmem) (Nat.not_succ_le_self i)

theorem ordsFrom_get : ∀ (n i t : Nat) (h : t < (ordsFrom i n).length),
    (ordsFrom i n).get ⟨t, h⟩ = i + t := by
  intro n
  induction n with
  | zero => intro i t h; rw [ordsFrom_length] at h; exact absurd h (Nat.not_lt_zero t)
  | succ n ih =>
    intro i t h
    cases t with
    | zero => rfl
    | succ t =>
      have h2 : t < (ordsFrom (i + 1) n).length := by
        rw [ordsFrom_length]
        rw [ordsFrom_length] at h
        exact Nat.lt_of_succ_lt_succ h
      calc (ordsFrom i (n + 1)).get ⟨t + 1, h⟩ = (ordsFrom (i + 1) n).get ⟨t, h2⟩ := rfl
        _ = (i + 1) + t := ih (i + 1) t h2
        _ = i + (t + 1) := by omega

/-- createLayerMappingAux never panics exactly when the diff-hash list is
at least as long as the layer list still to be processed. -/
theorem createLayerMappingAux_isSome :
    ∀ (layers diffIds : List String) (i : Nat) (lm : LayerMapping),
      (createLayerMappingAux i layers diffIds lm).isSome ↔ layers.length ≤ diffIds.length := by
  intro layers
  induction layers with
  | nil => intro diffIds i lm; simp [createLayerMappingAux]
  | cons d ls ih =>
    intro diffIds i lm
    cases diffIds with
    | nil => simp [createLayerMappingAux]
    | cons di ds =>
      simp only [createLayerMappingAux, List.length_cons, Nat.succ_le_succ_iff]
      exact ih ds (i + 1) (addLayer lm i d di)

/-- With pairwise-distinct digests and diff-hashes, every Go-map
assignment in the loop hits a fresh key, so the final five maps are the
initial ones extended by the zipped (ordinal, diff-hash, digest)
triples. -/
theorem createLayerMappingAux_char :
    ∀ (layers diffIds : List String) (i0 : Nat) (lm : LayerMapping),
      layers.length = diffIds.length →
      layers.Nodup → diffIds.Nodup →
      (∀ p ∈ lm.byDigest, ∀ d ∈ layers, p.1 ≠ d) →
      (∀ p ∈ lm.byDiffId, ∀ d ∈ diffIds, p.1 ≠ d) →
      (∀ p ∈ lm.ordinalByDiffId, ∀ d ∈ diffIds, p.1 ≠ d) →
      (∀ p ∈ lm.diffIdByOrdinal, p.1 < i0) →
      (∀ p ∈ lm.digestByOrdinal, p.1 < i0) →
      createLayerMappingAux i0 layers diffIds lm = some
        { byDiffId := lm.byDiffId ++ diffIds.zip layers
        , byDigest := lm.byDigest ++ layers.zip diffIds
        , diffIdByOrdinal := lm.diffIdByOrdinal ++ (ordsFrom i0 layers.length).zip diffIds
        , digestByOrdinal := lm.digestByOrdinal ++ (ordsFrom i0 layers.length).zip layers
        , ordinalByDiffId := lm.ordinalByDiffId ++ diffIds.zip (ordsFrom i0 layers.length) } := by
  intro layers
  induction layers with
  | nil =>
    intro diffIds i0 lm hlen hL hD h1 h2 h3 h4 h5
    cases diffIds with
    | nil => simp [createLayerMappingAux, ordsFrom]
    | cons d ds => exact absurd hlen (by simp)
  | cons dg ls ih =>
    intro diffIds i0 lm hlen hL hD h1 h2 h3 h4 h5
    cases diffIds with
    | nil => exact absurd hlen (by simp)
    | cons di ds =>
      have hLh := List.nodup_cons.mp hL
      have hDh := List.nodup_cons.mp hD
      have hadd : addLayer lm i0 dg di =
          { byDiffId := lm.byDiffId ++ [(di, dg)]
          , byDigest := lm.byDigest ++ [(dg, di)]
          , diffIdByOrdinal := lm.diffIdByOrdinal ++ [(i0, di)]
          , digestByOrdinal := lm.digestByOrdinal ++ [(i0, dg)]
          , ordinalByDiffId := lm.ordinalByDiffId ++ [(di, i0)] } := by
        unfold addLayer
        rw [mapInsert_fresh lm.byDiffId di dg
              (fun p hp => h2 p hp di (List.mem_cons_self di ds)),
            mapInsert_fresh lm.byDigest dg di
              (fun p hp => h1 p hp dg (List.mem_cons_self dg ls)),
            mapInsert_fresh lm.ordinalByDiffId di i0
              (fun p hp => h3 p hp di (List.mem_cons_self di ds)),
            mapInsert_fresh lm.diffIdByOrdinal i0 di
              (fun p hp => Nat.ne_of_lt (h4 p hp)),
            mapInsert_fresh lm.digestByOrdinal i0 dg
              (fun p hp => Nat.ne_of_lt (h5 p hp))]
      have hstep : createLayerMappingAux i0 (dg :: ls) (di :: ds) lm =
          createLayerMappingAux (i0 + 1) ls ds (addLayer lm i0 dg di) := rfl
      rw [hstep, hadd]
      have hres := ih ds (i0 + 1)
        { byDiffId := lm.byDiffId ++ [(di, dg)]
        , byDigest := lm.byDigest ++ [(dg, di)]
        , diffIdByOrdinal := lm.diffIdByOrdinal ++ [(i0, di)]
        , digestByOrdinal := lm.digestByOrdinal ++ [(i0, dg)]
        , ordinalByDiffId := lm.ordinalByDiffId ++ [(di, i0)] }
        (by simpa using hlen) hLh.2 hDh.2
        (by
          intro p hp d hd
          rcases List.mem_append.mp hp with hp | hp
          · exact h1 p hp d (List.mem_cons_of_mem dg hd)
          · have : p = (dg, di) := List.mem_singleton.mp hp
            subst this
            intro he
            have he2 : dg = d := he
            exact hLh.1 (he2 ▸ hd))
        (by
          intro p hp d hd
          rcases List.mem_append.mp hp with hp | hp
          · exact h2 p hp d (List.mem_cons_of_mem di hd)
          · have : p = (di, dg) := List.mem_singleton.mp hp
            subst this
            intro he
            have he2 : di = d := he
            exact hDh.1 (he2 ▸ hd))
        (by
          intro p hp d hd
          rcases List.mem_append.mp hp with hp | hp
          · exact h3 p hp d (List.mem_cons_of_mem di hd)
          · have : p = (di, i0) := List.mem_singleton.mp hp
            subst this
            intro he
            have he2 : di = d := he
            exact hDh.1 (he2 ▸ hd))
        (by
          intro p hp
          rcases List.mem_append.mp hp with hp | hp
          · exact Nat.lt_succ_of_lt (h4 p hp)
          · have : p = (i0, di) := List.mem_singleton.mp hp
            subst this
            exact Nat.lt_succ_self i0)
        (by
          intro p hp
          rcases List.mem_append.mp hp with hp | hp
          · exact Nat.lt_succ_of_lt (h5 p hp)
          · have : p = (i0, dg) := List.mem_singleton.mp hp
            subst this
            exact Nat.lt_succ_self i0)
      rw [hres]
      simp only [List.length_cons, ordsFrom, List.zip_cons_cons, List.append_assoc,
                 List.singleton_append]

theorem normalizePackage_of_isSome (lm : LayerMapping) (p : Package)
    (h : p.layerOrdinal.isSome) : normalizePackage lm p = .ok p := by
  cases hp : p.layerOrdinal with
  | none => rw [hp] at h; exact absurd h (by simp)
  | some i => simp [normalizePackage, hp]

theorem NormalizePackages_of_normalized (lm : LayerMapping) :
    ∀ (ps : List Package), (∀ p ∈ ps, p.layerOrdinal.isSome) →
      NormalizePackages lm ps = .ok ps := by
  intro ps
  induction ps with
  | nil => intro _; rfl
  | cons p ps ih =>
    intro h
    have h1 := normalizePackage_of_isSome lm p (h p (List.mem_cons_self p ps))
    have h2 := ih fun q hq => h q (List.mem_cons_of_mem p hq)
    simp [NormalizePackages, h1, h2]

theorem MergePackages_empty_second (a b : IndexResult) (hb : b.packages = []) :
    MergePackages a b = a.packages := by
  simp [MergePackages, hb]

theorem MergePackages_empty_first (a b : IndexResult) (ha : a.packages = []) :
    MergePackages a b = b.packages := by
  simp [MergePackages, ha]

theorem createLayerMapping_isSome (img : Image) :
    (createLayerMapping img).isSome ↔
      img.manifest.layers.length ≤ img.config.diffIds.length := by
  exact createLayerMappingAux_isSome img.manifest.layers img.config.diffIds 0 emptyLayerMapping

/-- C10: createLayerMapping reads diffIds[i] for every index i of the
layers list, so it completes without panicking exactly when the config's
diff-hash list is at least as long as the manifest's layer list. -/
theorem c10_layer_mapping_totality (img : Image) :
    (createLayerMapping img).isSome ↔
      img.manifest.layers.length ≤ img.config.diffIds.length :=
  createLayerMapping_isSome img

/-- C9: with an empty supplied name, indexImage performs no reference
parsing: a ReferenceParseError is impossible on this path, and when the
compute path succeeds the assembled document has an empty
Source.Image.Name and no Tags. -/
theorem c9_empty_name (build : BuildInfo) (img : Image)
    (trivyResult syftResult : IndexResult) :
    (∀ r, indexImageCompute build img "" trivyResult syftResult = some r →
       ∀ nm, r ≠ .error (.referenceParse nm)) ∧
    (∀ s, indexImageCompute build img "" trivyResult syftResult = some (.ok s) →
       s.source.image.name = "" ∧ s.source.image.tags = none) := by
  have href : refInfo "" = .ok ("", []) := rfl
  constructor
  · intro r hr nm
    unfold indexImageCompute at hr
    cases hlm : createLayerMapping img with
    | none => rw [hlm] at hr; exact absurd hr (by simp)
    | some lm =>
      rw [hlm] at hr
      simp only at hr
      cases hn : NormalizePackages lm syftResult.packages with
      | error e =>
        rw [hn] at hr
        simp only [Option.some_inj] at hr
        rw [← hr]
        simp
      | ok ps =>
        rw [hn] at hr
        simp only [href, Option.some_inj] at hr
        rw [← hr]
        simp
  · intro s hs
    unfold indexImageCompute at hs
    cases hlm : createLayerMapping img with
    | none => rw [hlm] at hs; exact absurd hs (by simp)
    | some lm =>
      rw [hlm] at hs
      simp only at hs
      cases hn : NormalizePackages lm syftResult.packages with
      | error e =>
        rw [hn] at hs
        simp at hs
      | ok ps =>
        rw [hn] at hs
        simp only [href, Option.some_inj, Except.ok.injEq] at hs
        rw [← hs]
        exact ⟨rfl, rfl⟩

/-- When the layer mapping builds and both normalizations succeed, the
compute path assembles exactly this document. -/
theorem indexImageCompute_ok (build : BuildInfo) (img : Image) (imageName : String)
    (trivyResult syftResult : IndexResult) (lm : LayerMapping)
    (tp sp : List Package) (cname : String) (tag : List String)
    (hlm : createLayerMapping img = some lm)
    (ht : NormalizePackages lm trivyResult.packages = .ok tp)
    (hs : NormalizePackages lm syftResult.packages = .ok sp)
    (href : refInfo imageName = .ok (cname, tag)) :
    indexImageCompute build img imageName trivyResult syftResult = some (.ok
      { artifacts := MergePackages { syftResult with packages := sp }
                                   { trivyResult with packages := tp }
      , source :=
        { type := "image"
        , image :=
          { name := cname
          , digest := img.digest
          , manifest := img.manifest
          , config := img.config
          , rawManifest := img.rawManifest
          , rawConfig := img.rawConfig
          , distro := syftResult.distro
          , platform :=
            { os := img.config.os
            , architecture := img.config.architecture
            , variant := img.config.variant }
          , size := img.manifest.configSize
          , tags := if tag.length > 0 then some tag else none } }
      , descriptor :=
        { name := "docker index"
        , version := build.version
        , sbomVersion := build.sbomVersion }
      , vulnerabilities := none }) := by
  unfold indexImageCompute
  rw [hlm]
  simp [ht, hs, href]

/-- When the supplied name does not parse, the compute path fails with
exactly the reference error (assuming the syft normalization passed the
single surviving error check). -/
theorem indexImageCompute_err_ref (build : BuildInfo) (img : Image) (imageName : String)
    (trivyResult syftResult : IndexResult) (lm : LayerMapping) (sp : List Package)
    (er : IndexError)
    (hlm : createLayerMapping img = some lm)
    (hs : NormalizePackages lm syftResult.packages = .ok sp)
    (herr : refInfo imageName = .error er) :
    indexImageCompute build img imageName trivyResult syftResult = some (.error er) := by
  unfold indexImageCompute
  rw [hlm]
  simp [hs, herr]

/-- C1: the persisted document is returned as a cache hit iff the disable
flag is unset, the file content is present, it unmarshals, and both
Descriptor versions equal the current build's; a version mismatch is
never a hit; and on a hit indexImage returns the persisted document
unchanged with the whole compute chain skipped (the result does not
depend on the engine results, and the file is untouched). -/
theorem c1_cache_hit_iff (noCache : Bool) (build : BuildInfo) (content : Option Json) :
    (∀ s : Sbom, cacheLookup noCache build content = some s ↔
      (noCache = false ∧ ∃ j, content = some j ∧ unmarshalSbom j = some s ∧
       s.descriptor.version = build.version ∧
       s.descriptor.sbomVersion = build.sbomVersion)) ∧
    (∀ j s, content = some j → unmarshalSbom j = some s →
       s.descriptor.sbomVersion ≠ build.sbomVersion →
       cacheLookup noCache build content = none) ∧
    (∀ s (img : Image) (imageName : String) (trivyResult syftResult : IndexResult),
       cacheLookup noCache build content = some s →
       indexImage noCache build content img imageName trivyResult syftResult =
         some (.ok (s, content))) := by
  refine ⟨?_, ?_, ?_⟩
  · intro s
    constructor
    · intro h
      unfold cacheLookup at h
      cases noCache with
      | true => simp at h
      | false =>
        cases content with
        | none => simp at h
        | some j =>
          simp only [Bool.false_eq_true, if_false] at h
          cases hj : unmarshalSbom j with
          | none => rw [hj] at h; simp at h
          | some t =>
            rw [hj] at h
            have h2 : (if t.descriptor.sbomVersion = build.sbomVersion ∧
                t.descriptor.version = build.version then some t else none) = some s := h
            by_cases hv : t.descriptor.sbomVersion = build.sbomVersion ∧
                t.descriptor.version = build.version
            · rw [if_pos hv] at h2
              have he : t = s := Option.some_inj.mp h2
              subst he
              exact ⟨rfl, j, rfl, hj, hv.2, hv.1⟩
            · rw [if_neg hv] at h2
              simp at h2
    · rintro ⟨hnc, j, hc, hj, hv1, hv2⟩
      subst hnc
      subst hc
      simp [cacheLookup, hj, hv1, hv2]
  · intro j s hc hj hne
    cases noCache with
    | true => rfl
    | false =>
      subst hc
      simp [cacheLookup, hj, hne]
  · intro s img imageName trivyResult syftResult h
    unfold indexImage
    rw [h]

/-- C8: a document whose Descriptor versions match the current build's,
written to the cache file by marshalSbom, is read back by the cache
lookup as exactly the document that was written — in particular with an
identical Artifacts list. -/
theorem c8_cache_round_trip (s : Sbom) (build : BuildInfo)
    (h1 : s.descriptor.version = build.version)
    (h2 : s.descriptor.sbomVersion = build.sbomVersion) :
    cacheLookup false build (some (marshalSbom s)) = some s := by
  simp [cacheLookup, unmarshalSbom_marshalSbom, h1, h2]

def buildEx : BuildInfo := { version := "1.0.0", sbomVersion := "0.0.1" }

def imgEx : Image :=
  { config := { diffIds := ["sha256:da"], os := "linux", architecture := "amd64", variant := "" }
  , manifest := { layers := ["sha256:ca"], configSize := 100 }
  , digest := "sha256:dig"
  , rawManifest := "bWFuaWZlc3Q="
  , rawConfig := "Y29uZmln" }

def resEmpty : IndexResult := { packages := [], distro := none, error := none }

def sbomEx9 : Sbom :=
  { artifacts := []
  , source :=
    { type := "image"
    , image :=
      { name := ""
      , digest := "sha256:dig"
      , manifest := imgEx.manifest
      , config := imgEx.config
      , rawManifest := imgEx.rawManifest
      , rawConfig := imgEx.rawConfig
      , distro := none
      , platform := { os := "linux", architecture := "amd64", variant := "" }
      , size := 100
      , tags := none } }
  , descriptor := { name := "docker index", version := "1.0.0", sbomVersion := "0.0.1" }
  , vulnerabilities := none }

theorem c9_empty_name_witness :
    sbomEx9.source.image.name = "" ∧ sbomEx9.source.image.tags = none :=
  (c9_empty_name buildEx imgEx resEmpty resEmpty).2 sbomEx9 rfl

theorem c8_cache_round_trip_witness :
    cacheLookup false buildEx (some (marshalSbom sbomEx9)) = some sbomEx9 :=
  c8_cache_round_trip sbomEx9 buildEx rfl rfl

theorem c1_cache_hit_iff_witness :
    indexImage false buildEx (some (marshalSbom sbomEx9)) imgEx "other/image:tag"
        resEmpty resEmpty = some (.ok (sbomEx9, some (marshalSbom sbomEx9))) :=
  (c1_cache_hit_iff false buildEx (some (marshalSbom sbomEx9))).2.2 sbomEx9 imgEx
    "other/image:tag" resEmpty resEmpty
    (by simp [cacheLookup, unmarshalSbom_marshalSbom, sbomEx9, buildEx])

def pkgBad : Package := { name := "curl", version := "7.0", ptype := "deb",
                          layerDiffId := "sha256:zz", layerOrdinal := none }

def pkgGood : Package := { name := "openssl", version := "1.1", ptype := "apk",
                           layerDiffId := "sha256:da", layerOrdinal := none }

def lmEx : LayerMapping :=
  { byDiffId := [("sha256:da", "sha256:ca")]
  , byDigest := [("sha256:ca", "sha256:da")]
  , diffIdByOrdinal := [(0, "sha256:da")]
  , digestByOrdinal := [(0, "sha256:ca")]
  , ordinalByDiffId := [("sha256:da", 0)] }

def trivyBadRes : IndexResult :=
  { packages := [pkgBad], distro := none, error := some "trivy failed on a layer" }

def syftGoodRes : IndexResult :=
  { packages := [pkgGood], distro := some { name := "alpine", version := "3.17" }, error := none }

def sbomEx2 : Sbom :=
  { artifacts := [{ name := "openssl", version := "1.1", ptype := "apk",
                    layerDiffId := "sha256:da", layerOrdinal := some 0 }]
  , source :=
    { type := "image"
    , image :=
      { name := ""
      , digest := "sha256:dig"
      , manifest := imgEx.manifest
      , config := imgEx.config
      , rawManifest := imgEx.rawManifest
      , rawConfig := imgEx.rawConfig
      , distro := some { name := "alpine", version := "3.17" }
      , platform := { os := "linux", architecture := "amd64", variant := "" }
      , size := 100
      , tags := none } }
  , descriptor := { name := "docker index", version := "1.0.0", sbomVersion := "0.0.1" }
  , vulnerabilities := none }

/-- C2 evaluated at the failing input: the trivy package list fails
normalization (its layer reference resolves against nothing in the
mapping), the syft list normalizes fine — yet indexImage succeeds,
returning a document holding only the syft package and no error, because
lines 111-113 keep only the second normalization call's error. -/
theorem c2_code_bug :
    createLayerMapping imgEx = some lmEx ∧
    NormalizePackages lmEx trivyBadRes.packages =
      .error "unable to resolve layer sha256:zz" ∧
    indexImageCompute buildEx imgEx "" trivyBadRes syftGoodRes = some (.ok sbomEx2) ∧
    sbomEx2.artifacts.length = 1 :=
  ⟨rfl, rfl, rfl, rfl⟩

/-- C3 evaluated at the failing input: the pipeline succeeded, the
vulnerability lookup errors. The delivered record does carry the computed
document with its Vulnerabilities field unset, but the enrichment error is
written into the record's Error field (line 48 reassigned `err`), so the
image surfaces as failed. -/
theorem c3_code_bug :
    sbomEx2.vulnerabilities = none ∧
    indexImageAsync "test/image" (some sbomEx2, none, none)
        (fun _ => .error "vulnerability lookup failed") =
      some { input := "test/image", image := none, sbom := some sbomEx2,
             error := some "vulnerability lookup failed" } :=
  ⟨rfl, rfl⟩

/-- C4 evaluated at the failing input: IndexImage failed with a wrapped
download error. If the vulnerability lookup also errors, the record
carries the lookup's error, not the pipeline error (line 48 overwrote
it); if the lookup succeeds, line 50 dereferences the nil sbom pointer
and no record is delivered at all. -/
theorem c4_code_bug :
    indexImageAsync "test/image"
        (none, none, some "failed to download image: manifest unknown")
        (fun _ => .error "vulnerability lookup failed") =
      some { input := "test/image", image := none, sbom := none,
             error := some "vulnerability lookup failed" } ∧
    indexImageAsync "test/image"
        (none, none, some "failed to download image: manifest unknown")
        (fun _ => .ok []) = none :=
  ⟨rfl, rfl⟩

/-- C5: one engine delivers an error and no packages, the other delivers
normalized packages — the compute path succeeds either way round and the
assembled Artifacts list is exactly the successful engine's list; the
error carried inside the failed engine's IndexResult is read by nothing
on the compute path. -/
theorem c5_one_engine_failure (build : BuildInfo) (img : Image)
    (failRes okRes : IndexResult) (e : String)
    (hfail : failRes.error = some e)
    (hempty : failRes.packages = [])
    (hlen : okRes.packages.length = 3)
    (hnorm : ∀ p ∈ okRes.packages, p.layerOrdinal.isSome)
    (hlm : img.manifest.layers.length ≤ img.config.diffIds.length) :
    (∃ s, indexImageCompute build img "" failRes okRes = some (.ok s) ∧
       s.artifacts = okRes.packages) ∧
    (∃ s, indexImageCompute build img "" okRes failRes = some (.ok s) ∧
       s.artifacts = okRes.packages) := by
  obtain ⟨lm, hlm2⟩ := Option.isSome_iff_exists.mp
    ((createLayerMapping_isSome img).mpr hlm)
  have hok : NormalizePackages lm okRes.packages = .ok okRes.packages :=
    NormalizePackages_of_normalized lm okRes.packages hnorm
  have hfl : NormalizePackages lm failRes.packages = .ok [] := by
    rw [hempty]
    rfl
  have href : refInfo "" = .ok ("", []) := rfl
  constructor
  · refine ⟨_, indexImageCompute_ok build img "" failRes okRes lm [] okRes.packages
      "" [] hlm2 hfl hok href, ?_⟩
    exact MergePackages_empty_second _ _ rfl
  · refine ⟨_, indexImageCompute_ok build img "" okRes failRes lm okRes.packages []
      "" [] hlm2 hok hfl href, ?_⟩
    exact MergePackages_empty_first _ _ rfl

def pkgA : Package := { name := "busybox", version := "1.36", ptype := "apk",
                        layerDiffId := "sha256:da", layerOrdinal := some 0 }

def pkgB : Package := { name := "zlib", version := "1.2.13", ptype := "apk",
                        layerDiffId := "sha256:da", layerOrdinal := some 0 }

def pkgC : Package := { name := "musl", version := "1.2.4", ptype := "apk",
                        layerDiffId := "sha256:da", layerOrdinal := some 0 }

def okThreeRes : IndexResult :=
  { packages := [pkgA, pkgB, pkgC]
  , distro := some { name := "alpine", version := "3.17" }
  , error := none }

def failRes : IndexResult := { packages := [], distro := none, error := some "engine A failed" }

theorem c5_one_engine_failure_witness :
    (∃ s, indexImageCompute buildEx imgEx "" failRes okThreeRes = some (.ok s) ∧
       s.artifacts = okThreeRes.packages) ∧
    (∃ s, indexImageCompute buildEx imgEx "" okThreeRes failRes = some (.ok s) ∧
       s.artifacts = okThreeRes.packages) :=
  c5_one_engine_failure buildEx imgEx failRes okThreeRes "engine A failed"
    rfl rfl rfl (by decide) (by decide)

def digestEx : String :=
  "sha256:aaaaaaaaaaaaaaaaaaaaaaaaaaaaaaaaaaaaaaaaaaaaaaaaaaaaaaaaaaaaaaaa"

def digestNameEx : String := String.append "repo/image@" digestEx

/-- C7: a non-empty supplied name is parsed and its repository form
becomes Source.Image.Name, a tag identifier lands in Tags while a digest
identifier leaves Tags unset; `repo/image:latest` and a digest reference
behave exactly as the spec's examples state; an unparsable non-empty name
fails the run with the reference-parse error. -/
theorem c7_reference_parsing (build : BuildInfo) (img : Image)
    (trivyResult syftResult : IndexResult)
    (hlm : img.manifest.layers.length ≤ img.config.diffIds.length)
    (ht : ∀ p ∈ trivyResult.packages, p.layerOrdinal.isSome)
    (hs : ∀ p ∈ syftResult.packages, p.layerOrdinal.isSome) :
    (∀ nm ref, nm ≠ "" → parseReference nm = some ref →
       ∃ s, indexImageCompute build img nm trivyResult syftResult = some (.ok s) ∧
         s.source.image.name = ref.repository ∧
         s.source.image.tags =
           (if sha256Identifier ref.identifier then none else some [ref.identifier])) ∧
    parseReference "repo/image:latest" = some ⟨"repo/image", "latest"⟩ ∧
    (∃ s, indexImageCompute build img "repo/image:latest" trivyResult syftResult =
        some (.ok s) ∧
       s.source.image.name = "repo/image" ∧ s.source.image.tags = some ["latest"]) ∧
    parseReference digestNameEx = some ⟨"repo/image", digestEx⟩ ∧
    (∃ s, indexImageCompute build img digestNameEx trivyResult syftResult =
        some (.ok s) ∧
       s.source.image.name = "repo/image" ∧ s.source.image.tags = none) ∧
    (∀ nm, nm ≠ "" → parseReference nm = none →
       indexImageCompute build img nm trivyResult syftResult =
         some (.error (.referenceParse nm))) := by
  obtain ⟨lm, hlm2⟩ := Option.isSome_iff_exists.mp
    ((createLayerMapping_isSome img).mpr hlm)
  have hnt : NormalizePackages lm trivyResult.packages = .ok trivyResult.packages :=
    NormalizePackages_of_normalized lm trivyResult.packages ht
  have hns : NormalizePackages lm syftResult.packages = .ok syftResult.packages :=
    NormalizePackages_of_normalized lm syftResult.packages hs
  have hmain : ∀ nm ref, nm ≠ "" → parseReference nm = some ref →
      ∃ s, indexImageCompute build img nm trivyResult syftResult = some (.ok s) ∧
        s.source.image.name = ref.repository ∧
        s.source.image.tags =
          (if sha256Identifier ref.identifier then none else some [ref.identifier]) := by
    intro nm ref hne hp
    have href : refInfo nm = .ok (ref.repository,
        if sha256Identifier ref.identifier then [] else [ref.identifier]) := by
      simp [refInfo, hne, hp]
    refine ⟨_, indexImageCompute_ok build img nm trivyResult syftResult lm
      trivyResult.packages syftResult.packages ref.repository _ hlm2 hnt hns href,
      rfl, ?_⟩
    cases hsw : sha256Identifier ref.identifier with
    | true => simp
    | false => simp
  refine ⟨hmain, rfl, ?_, rfl, ?_, ?_⟩
  · obtain ⟨s, h1, h2, h3⟩ :=
      hmain "repo/image:latest" ⟨"repo/image", "latest"⟩ (by decide) rfl
    exact ⟨s, h1, h2, by simpa using h3⟩
  · obtain ⟨s, h1, h2, h3⟩ := hmain digestNameEx ⟨"repo/image", digestEx⟩ (by decide) rfl
    refine ⟨s, h1, h2, ?_⟩
    have hd : sha256Identifier digestEx = true := by decide
    simp only [hd] at h3
    simpa using h3
  · intro nm hne hp
    have href : refInfo nm = .error (.referenceParse nm) := by
      simp [refInfo, hne, hp]
    exact indexImageCompute_err_ref build img nm trivyResult syftResult lm
      syftResult.packages (.referenceParse nm) hlm2 hns href

def normRes : IndexResult :=
  { packages := [pkgA], distro := some { name := "alpine", version := "3.17" }, error := none }

theorem c7_reference_parsing_witness :
    ∃ s, indexImageCompute buildEx imgEx "repo/image:latest" normRes normRes =
        some (.ok s) ∧
      s.source.image.name = "repo/image" ∧ s.source.image.tags = some ["latest"] :=
  (c7_reference_parsing buildEx imgEx normRes normRes (by decide)
    (by decide) (by decide)).2.2.1

def imgDup : Image :=
  { config := { diffIds := ["sha256:a", "sha256:b"], os := "linux",
                architecture := "amd64", variant := "" }
  , manifest := { layers := ["sha256:d", "sha256:d"], configSize := 1 }
  , digest := "sha256:x"
  , rawManifest := ""
  , rawConfig := "" }

def lmDup : LayerMapping :=
  { byDiffId := [("sha256:a", "sha256:d"), ("sha256:b", "sha256:d")]
  , byDigest := [("sha256:d", "sha256:b")]
  , diffIdByOrdinal := [(0, "sha256:a"), (1, "sha256:b")]
  , digestByOrdinal := [(0, "sha256:d"), (1, "sha256:d")]
  , ordinalByDiffId := [("sha256:a", 0), ("sha256:b", 1)] }

/-- C6 fails as stated: an image with equal-length, index-aligned lists
but a repeated layer digest (legal in the image format) breaks both the
bidirectionality equation at ordinal 0 and the size claim — ByDigest has
one entry for two layers, and ByDigest[DigestByOrdinal[0]] is the second
diff-hash, not DiffIdByOrdinal[0]. -/
theorem c6_counterexample :
    imgDup.config.diffIds.length = imgDup.manifest.layers.length ∧
    createLayerMapping imgDup = some lmDup ∧
    mapFind lmDup.digestByOrdinal 0 = some "sha256:d" ∧
    mapFind lmDup.byDigest "sha256:d" = some "sha256:b" ∧
    mapFind lmDup.diffIdByOrdinal 0 = some "sha256:a" ∧
    mapFind lmDup.byDigest "sha256:d" ≠ mapFind lmDup.diffIdByOrdinal 0 ∧
    lmDup.byDigest.length ≠ imgDup.manifest.layers.length := by
  refine ⟨rfl, rfl, rfl, rfl, rfl, ?_, ?_⟩ <;> decide

/-- C6 amended: when additionally the layer digests are pairwise distinct
and the diff-hashes are pairwise distinct, the LayerMapping is
bidirectional — for every ordinal i in range,
ByDigest[DigestByOrdinal[i]] = DiffIdByOrdinal[i] and
OrdinalByDiffId[DiffIdByOrdinal[i]] = i (with ByDiffId inverse as well) —
and each of the five maps has exactly one entry per layer. -/
theorem c6_amended_bidirectional (img : Image) (lm : LayerMapping)
    (hlm : createLayerMapping img = some lm)
    (hlen : img.config.diffIds.length = img.manifest.layers.length)
    (hL : img.manifest.layers.Nodup)
    (hD : img.config.diffIds.Nodup) :
    (∀ i, i < img.manifest.layers.length →
       ∃ dg di, mapFind lm.digestByOrdinal i = some dg ∧
         mapFind lm.diffIdByOrdinal i = some di ∧
         mapFind lm.byDigest dg = some di ∧
         mapFind lm.byDiffId di = some dg ∧
         mapFind lm.ordinalByDiffId di = some i) ∧
    lm.byDiffId.length = img.manifest.layers.length ∧
    lm.byDigest.length = img.manifest.layers.length ∧
    lm.diffIdByOrdinal.length = img.manifest.layers.length ∧
    lm.digestByOrdinal.length = img.manifest.layers.length ∧
    lm.ordinalByDiffId.length = img.manifest.layers.length := by
  have hchar := createLayerMappingAux_char img.manifest.layers img.config.diffIds 0
    emptyLayerMapping hlen.symm hL hD
    (fun p hp => absurd hp (List.not_mem_nil p))
    (fun p hp => absurd hp (List.not_mem_nil p))
    (fun p hp => absurd hp (List.not_mem_nil p))
    (fun p hp => absurd hp (List.not_mem_nil p))
    (fun p hp => absurd hp (List.not_mem_nil p))
  simp only [emptyLayerMapping, List.nil_append] at hchar
  unfold createLayerMapping at hlm
  simp only [emptyLayerMapping] at hlm
  rw [hchar] at hlm
  have hlm2 := (Option.some_inj.mp hlm).symm
  subst hlm2
  constructor
  · intro i hi
    have hiD : i < img.config.diffIds.length := by rw [hlen]; exact hi
    have hiO : i < (ordsFrom 0 img.manifest.layers.length).length := by
      rw [ordsFrom_length]; exact hi
    have hkey : (ordsFrom 0 img.manifest.layers.length).get ⟨i, hiO⟩ = i := by
      rw [ordsFrom_get]; exact Nat.zero_add i
    refine ⟨img.manifest.layers.get ⟨i, hi⟩, img.config.diffIds.get ⟨i, hiD⟩,
      ?_, ?_, ?_, ?_, ?_⟩
    · have h1 := mapFind_zip_get (ordsFrom 0 img.manifest.layers.length)
        img.manifest.layers i (ordsFrom_nodup img.manifest.layers.length 0) hiO hi
      rw [hkey] at h1
      exact h1
    · have h2 := mapFind_zip_get (ordsFrom 0 img.manifest.layers.length)
        img.config.diffIds i (ordsFrom_nodup img.manifest.layers.length 0) hiO hiD
      rw [hkey] at h2
      exact h2
    · exact mapFind_zip_get img.manifest.layers img.config.diffIds i hL hi hiD
    · exact mapFind_zip_get img.config.diffIds img.manifest.layers i hD hiD hi
    · have h5 := mapFind_zip_get img.config.diffIds
        (ordsFrom 0 img.manifest.layers.length) i hD hiD hiO
      rw [hkey] at h5
      exact h5
  · refine ⟨?_, ?_, ?_, ?_, ?_⟩ <;>
      simp [List.length_zip, ordsFrom_length, hlen]

def imgTwo : Image :=
  { config := { diffIds := ["sha256:a1", "sha256:b2"], os := "linux",
                architecture := "arm64", variant := "v8" }
  , manifest := { layers := ["sha256:c3", "sha256:d4"], configSize := 7 }
  , digest := "sha256:e5"
  , rawManifest := "m"
  , rawConfig := "c" }

def lmTwo : LayerMapping :=
  { byDiffId := [("sha256:a1", "sha256:c3"), ("sha256:b2", "sha256:d4")]
  , byDigest := [("sha256:c3", "sha256:a1"), ("sha256:d4", "sha256:b2")]
  , diffIdByOrdinal := [(0, "sha256:a1"), (1, "sha256:b2")]
  , digestByOrdinal := [(0, "sha256:c3"), (1, "sha256:d4")]
  , ordinalByDiffId := [("sha256:a1", 0), ("sha256:b2", 1)] }

theorem c6_amended_bidirectional_witness :
    (∃ dg di, mapFind lmTwo.digestByOrdinal 0 = some dg ∧
       mapFind lmTwo.diffIdByOrdinal 0 = some di ∧
       mapFind lmTwo.byDigest dg = some di ∧
       mapFind lmTwo.byDiffId di = some dg ∧
       mapFind lmTwo.ordinalByDiffId di = some 0) ∧
    lmTwo.byDigest.length = imgTwo.manifest.layers.length :=
  ⟨(c6_amended_bidirectional imgTwo lmTwo rfl rfl (by decide) (by decide)).1 0
     (by decide),
   (c6_amended_bidirectional imgTwo lmTwo rfl rfl (by decide) (by decide)).2.2.1⟩

end DockerIndex
